import Mathlib

/-!
A shallow embedding of `src/eventually.ts` (package `@codeo/eventually`):
a retry-with-backoff engine with a pluggable failure policy.

Modelling conventions:
* A JS async operation (`EventualFunction<T>`) is modelled as a stream
  `Nat → Except ε α`: the value at `n` is the settled result of the
  operation's `n`-th invocation (`.ok` = resolve, `.error` = reject).
  A per-stream invocation counter is threaded through the engine so that
  theorems can count how many times an operation was invoked.
* `await sleep(ms)` is modelled by recording `ms` in an output trace
  (the engine performs no real I/O; only the requested durations matter).
* An optional / possibly-`undefined` field is an `Option`.  JS truthiness
  tests (`x || y`) on numbers are modelled explicitly: `0` is falsy,
  an array (even empty) is truthy.
* The promise returned for the `halt` strategy (`new Promise(() => {})`)
  never settles; it is modelled by the dedicated outcome `Outcome.hang`.
* The engine's top-level recursion (`eventually` calling itself for
  `retry` / new-options / redirect) is not structurally terminating in
  the source, so the model takes fuel; `none` means the fuel ran out.
-/

/-- `enum ErrorHandlingStrategies { fail, halt, suppress, retry }`. -/
inductive ErrorHandlingStrategies : Type where
  | fail
  | halt
  | suppress
  | retry
deriving DecidableEq, Repr

/-- `IRedirectingEventuallyOptions<T>`: the options record.
`retries?: number` (JS numbers can be negative, hence `Int`),
`fail?: (e) => Promise<Strategies | IEventuallyOptions>` (the handler may
itself reject, hence `Except ε`), `backoff?: number[] | number` (hence a
sum), `redirect?: (e) => Promise<T>` (a stream per error, since the
closure `() => redirect(lastError)` may be invoked repeatedly). -/
inductive EvOptions (α ε : Type) : Type where
  | mk (retries : Option Int)
      (failHandler : Option (ε → Except ε (ErrorHandlingStrategies ⊕ EvOptions α ε)))
      (backoff : Option (Nat ⊕ List Nat))
      (redirect : Option (ε → Nat → Except ε α))

/-- Field accessor for `options.retries`. -/
def EvOptions.retries : EvOptions α ε → Option Int
  | .mk r _ _ _ => r

/-- Field accessor for `options.fail`. -/
def EvOptions.failHandler :
    EvOptions α ε → Option (ε → Except ε (ErrorHandlingStrategies ⊕ EvOptions α ε))
  | .mk _ f _ _ => f

/-- Field accessor for `options.backoff`. -/
def EvOptions.backoff : EvOptions α ε → Option (Nat ⊕ List Nat)
  | .mk _ _ b _ => b

/-- Field accessor for `options.redirect`. -/
def EvOptions.redirect : EvOptions α ε → Option (ε → Nat → Except ε α)
  | .mk _ _ _ rd => rd

/-- The settled outcome of a call to `eventually`:
`ok (some v)` = resolves with `v`, `ok none` = resolves `undefined`
(the `suppress` strategy), `err e` = rejects with `e`, and `hang` models
the never-settling promise returned for the `halt` strategy. -/
inductive Outcome (α ε : Type) : Type where
  | ok (v : Option α)
  | err (e : ε)
  | hang
deriving DecidableEq, Repr

/-- The process-wide mutable module state: the variables `defaultRetries`,
`defaultFailHandler` and `defaultBackoff`. -/
structure Defaults (α ε : Type) : Type where
  retries : Int
  failHandler : ε → Except ε (ErrorHandlingStrategies ⊕ EvOptions α ε)
  backoff : List Nat

/-- The module-load values: `defaultRetries = 0`,
`defaultFailHandler = async () => ErrorHandlingStrategies.fail`,
`defaultBackoff = []`. -/
def initialDefaults (α ε : Type) : Defaults α ε :=
  { retries := 0
    failHandler := fun _ => .ok (.inl .fail)
    backoff := [] }

/-- `ensureArray(value)`: wrap a scalar in a singleton array. -/
def ensureArray : Nat ⊕ List Nat → List Nat
  | .inl n => [n]
  | .inr l => l

/-- `configureDefaults(opts)`: overwrite each default variable whose field
is present (not `undefined`) in the argument. -/
def configureDefaults (opts : EvOptions α ε) (d : Defaults α ε) : Defaults α ε :=
  { retries := match opts.retries with
      | some r => r
      | none => d.retries
    failHandler := match opts.failHandler with
      | some f => f
      | none => d.failHandler
    backoff := match opts.backoff with
      | some b => ensureArray b
      | none => d.backoff }

/-- The `const defaultOptions` record.  It is built ONCE at module load
from the then-current default variables, so it permanently holds the
module-load values (`retries: 0`, the always-`fail` handler, `backoff: []`);
later `configureDefaults` calls reassign the default variables but never
touch this record. -/
def defaultOptions (α ε : Type) : EvOptions α ε :=
  .mk (some 0) (some (fun _ => .ok (.inl .fail))) (some (.inr [])) none

/-- `resolveOptions(options?)`: with no argument, return the (frozen)
`defaultOptions` record itself; otherwise fill each of the keys of
`defaultOptions` (`retries`, `fail`, `backoff` — not `redirect`) that is
`undefined` in the caller's record from `defaultOptions`.  NOTE: the
source assigns the filled fields onto the caller's record in place and
returns that same object, so this returned record is also what the
caller's record looks like after the call. -/
def resolveOptions (opts : Option (EvOptions α ε)) : EvOptions α ε :=
  match opts with
  | none => defaultOptions α ε
  | some (.mk r f b rd) =>
      .mk
        (match r with | none => (defaultOptions α ε).retries | some v => some v)
        (match f with | none => (defaultOptions α ε).failHandler | some v => some v)
        (match b with | none => (defaultOptions α ε).backoff | some v => some v)
        rd

/-- JS `x || d` on a possibly-`undefined` number: `undefined` and `0` are
falsy.  Used for `options.retries || defaultRetries` and for
`backoff.shift() || fallbackBackoff`. -/
def jsOrInt (x : Option Int) (d : Int) : Int :=
  match x with
  | none => d
  | some v => if v = 0 then d else v

/-- JS `x || d` on a possibly-`undefined` `number` value. -/
def jsOrNum (x : Option Nat) (d : Nat) : Nat :=
  match x with
  | none => d
  | some v => if v = 0 then d else v

/-- JS `options.backoff || defaultBackoff`: `undefined` and the scalar `0`
are falsy; an array (even `[]`) is truthy. -/
def jsOrBackoff (x : Option (Nat ⊕ List Nat)) (d : List Nat) : Nat ⊕ List Nat :=
  match x with
  | none => .inr d
  | some (.inl n) => if n = 0 then .inr d else .inl n
  | some (.inr l) => .inr l

/-- `omit(options, "redirect")`: a copy of the record without the
`redirect` key. -/
def omitRedirect (o : EvOptions α ε) : EvOptions α ε :=
  .mk o.retries o.failHandler o.backoff none

/-- One iteration's delay: `backoff.shift() || fallbackBackoff`.
`shift` removes and yields the head; `undefined` (empty array) and a head
of `0` are both falsy, in which case the fallback is used instead (the
head of `0` is still removed). -/
def shiftDelay (bo : List Nat) (fallback : Nat) : Nat × List Nat :=
  match bo with
  | [] => (fallback, [])
  | d :: rest => (jsOrNum (some d) fallback, rest)

/-- The `do … while (attempts++ < retries)` loop of `tryDo`.
`remaining` is how many further attempts the budget allows after the
current one (so the `attempts++ < retries` check is "recurse while
`remaining > 0`"); `c` is the stream's invocation counter; `bo` the
working copy of the backoff array; `isFirst` whether this is the first
attempt (`attempts > 0` is false, so no sleep).  Each iteration sleeps
(unless first), invokes the operation, returns on success, and on failure
either recurses (budget left) or rethrows the recorded error.  Returns
the settled result, the trace of `sleep` durations, and the counter
after the loop. -/
def tryDoGo (func : Nat → Except ε α) (fallback : Nat) :
    Nat → Nat → List Nat → Bool → Except ε α × List Nat × Nat
  | 0, c, bo, isFirst =>
    let ds : List Nat := if isFirst then [] else [(shiftDelay bo fallback).1]
    match func c with
    | .ok v => (.ok v, ds, c + 1)
    | .error e => (.error e, ds, c + 1)
  | r + 1, c, bo, isFirst =>
    let ds : List Nat := if isFirst then [] else [(shiftDelay bo fallback).1]
    let bo1 : List Nat := if isFirst then bo else (shiftDelay bo fallback).2
    match func c with
    | .ok v => (.ok v, ds, c + 1)
    | .error _ =>
      let next := tryDoGo func fallback r (c + 1) bo1 false
      (next.1, ds ++ next.2.1, next.2.2)

/-- `tryDo(func, retries, backoff)`: copy the backoff array, compute
`fallbackBackoff = backoff[backoff.length - 1] || 0`, then run the
attempt loop.  The loop makes `max(retries, 0) + 1` attempts in total
(the `attempts++ < retries` check runs after each attempt). -/
def tryDo (func : Nat → Except ε α) (retries : Int) (backoff : List Nat)
    (c : Nat) : Except ε α × List Nat × Nat :=
  tryDoGo func (backoff.getLast?.getD 0) retries.toNat c backoff true

/-- `eventually(func, options?)` under the current default variables `D`,
with `fuel` bounding the recursion depth (`none` = fuel ran out) and `c`
the invocation counter of the current operation stream.  Returns the
outcome, the full trace of `sleep` durations, and the final invocation
counter of whichever stream was last being attempted.  Inlines
`handleComplexEventualFailResult` and `handleSimpleEventuallyResult`
(the two trailing `match`es). -/
def eventually (D : Defaults α ε) :
    Nat → (Nat → Except ε α) → Option (EvOptions α ε) → Nat →
      Option (Outcome α ε × List Nat × Nat)
  | 0, _, _, _ => none
  | fuel + 1, func, opts, c =>
    let o := resolveOptions opts
    let retries := jsOrInt o.retries D.retries
    let backoff := jsOrBackoff o.backoff D.backoff
    match tryDo func retries (ensureArray backoff) c with
    | (.ok v, ds, c1) => some (.ok (some v), ds, c1)
    | (.error lastError, ds, c1) =>
      match o.redirect with
      | some rd =>
        match eventually D fuel (fun n => rd lastError n) (some (omitRedirect o)) 0 with
        | none => none
        | some (out, ds2, c2) => some (out, ds ++ ds2, c2)
      | none =>
        match o.failHandler with
        | none => some (.err lastError, ds, c1)
        | some f =>
          match f lastError with
          | .error h => some (.err h, ds, c1)
          | .ok (.inr newOpts) =>
            match newOpts.redirect with
            | some rd2 =>
              match eventually D fuel (fun n => rd2 lastError n)
                  (some (omitRedirect newOpts)) 0 with
              | none => none
              | some (out, ds2, c2) => some (out, ds ++ ds2, c2)
            | none =>
              match eventually D fuel func (some newOpts) c1 with
              | none => none
              | some (out, ds2, c2) => some (out, ds ++ ds2, c2)
          | .ok (.inl s) =>
            match s with
            | .fail => some (.err lastError, ds, c1)
            | .retry =>
              match eventually D fuel func (some o) c1 with
              | none => none
              | some (out, ds2, c2) => some (out, ds ++ ds2, c2)
            | .halt => some (.hang, ds, c1)
            | .suppress => some (.ok none, ds, c1)

section Theorems

variable {α ε : Type}

/-- Helper: with an always-failing operation, the `tryDo` loop with
`remaining` further attempts allowed performs exactly `remaining + 1`
invocations and ends with the error of the last one. -/
theorem tryDoGo_alwaysFail (g : Nat → ε) (fallback : Nat) :
    ∀ (remaining c : Nat) (bo : List Nat) (isFirst : Bool),
      ∃ ds : List Nat,
        tryDoGo (α := α) (fun n => Except.error (g n)) fallback remaining c bo isFirst
          = (Except.error (g (c + remaining)), ds, c + remaining + 1) := by
  intro remaining
  induction remaining with
  | zero =>
      intro c bo isFirst
      exact ⟨if isFirst then [] else [(shiftDelay bo fallback).1], by
        cases isFirst <;> simp [tryDoGo]⟩
  | succ r ih =>
      intro c bo isFirst
      cases isFirst with
      | false =>
          obtain ⟨ds, hds⟩ := ih (c + 1) (shiftDelay bo fallback).2 false
          refine ⟨(shiftDelay bo fallback).1 :: ds, ?_⟩
          have harith : c + 1 + r = c + (r + 1) := by omega
          rw [harith] at hds
          simp [tryDoGo, hds]
      | true =>
          obtain ⟨ds, hds⟩ := ih (c + 1) bo false
          refine ⟨ds, ?_⟩
          have harith : c + 1 + r = c + (r + 1) := by omega
          rw [harith] at hds
          simp [tryDoGo, hds]

/-- Helper: with an always-failing operation and a backoff list of
positive durations no longer than the remaining budget plus one, the
delay trace of the loop (from a non-first iteration on) is the list
itself followed by the fallback value. -/
theorem tryDoGo_delays (g : Nat → ε) (fallback : Nat) :
    ∀ (remaining : Nat) (bo : List Nat) (c : Nat),
      (∀ d ∈ bo, 0 < d) → bo.length ≤ remaining + 1 →
      (tryDoGo (α := α) (fun n => Except.error (g n)) fallback remaining c bo false).2.1
        = bo ++ List.replicate (remaining + 1 - bo.length) fallback := by
  intro remaining
  induction remaining with
  | zero =>
      intro bo c hpos hlen
      match bo, hlen with
      | [], _ => simp [tryDoGo, shiftDelay]
      | [d], _ =>
          have hd : 0 < d := hpos d (by simp)
          simp [tryDoGo, shiftDelay, jsOrNum, Nat.pos_iff_ne_zero.mp hd]
  | succ r ih =>
      intro bo c hpos hlen
      match bo with
      | [] =>
          have h := ih [] (c + 1) (by simp) (by simp)
          simp [tryDoGo, shiftDelay, h, List.replicate_succ]
      | d :: rest =>
          have hd : 0 < d := hpos d (by simp)
          have h := ih rest (c + 1) (fun x hx => hpos x (by simp [hx]))
            (by simp only [List.length_cons] at hlen; omega)
          simp [tryDoGo, shiftDelay, jsOrNum, Nat.pos_iff_ne_zero.mp hd, h,
            Nat.succ_sub_succ]

/-- C1: for every retries value `r ≥ 0` handed to the retry engine and an
operation that fails on every invocation, the engine invokes the
operation exactly `r + 1` times (the counter advances from `c` to
`c + r + 1`, i.e. invocations `c, c+1, …, c+r`) and then fails with the
error recorded from the last attempt (invocation `c + r`). -/
theorem c1_exhaustion_attempts_and_last_error (g : Nat → ε) (r : Nat)
    (bo : List Nat) (c : Nat) :
    ∃ ds : List Nat,
      tryDo (α := α) (fun n => Except.error (g n)) (Int.ofNat r) bo c
        = (Except.error (g (c + r)), ds, c + r + 1) := by
  have h := tryDoGo_alwaysFail (α := α) g (bo.getLast?.getD 0) r c bo true
  simpa [tryDo] using h

/-- C2 counterexample: with backoff sequence `[0, 5]` and `retries = 3`,
the claim predicts delays `d0, d1, d1 = [0, 5, 5]`, but the engine awaits
`[5, 5, 5]`: `backoff.shift() || fallbackBackoff` treats the shifted `0`
as falsy and substitutes the fallback (last element) instead. -/
theorem c2_counterexample :
    (tryDo (fun n => (Except.error n : Except Nat Nat)) (Int.ofNat 3) [0, 5] 0).2.1
        = [5, 5, 5]
    ∧ (tryDo (fun n => (Except.error n : Except Nat Nat)) (Int.ofNat 3) [0, 5] 0).2.1
        ≠ [0, 5, 5] := by
  decide

/-- C2 (amended): for an always-failing operation, (a) a backoff sequence
of POSITIVE durations `[d0, …, dn]` with `r > n` retries yields delays
exactly `d0, …, dn` and then `dn` (the fallback, its last element)
repeated for every further attempt; (b) the empty sequence yields `0`
for every delay; (c) a scalar backoff `d ≠ 0` normalizes to exactly the
same backoff list as the sequence `[d]` (hence the same delays).  A zero
entry in the sequence is consumed but replaced by the fallback delay, and
a scalar `0` is falsy and replaced by the process-default backoff, which
is why the claim is restricted to positive durations. -/
theorem c2_amended_backoff_schedule :
    (∀ (g : Nat → ε) (bo : List Nat) (r c : Nat),
        (∀ d ∈ bo, 0 < d) → bo ≠ [] → bo.length ≤ r →
        (tryDo (α := α) (fun n => Except.error (g n)) (Int.ofNat r) bo c).2.1
          = bo ++ List.replicate (r - bo.length) (bo.getLast?.getD 0))
    ∧ (∀ (g : Nat → ε) (r c : Nat),
        (tryDo (α := α) (fun n => Except.error (g n)) (Int.ofNat r) [] c).2.1
          = List.replicate r 0)
    ∧ (∀ (d : Nat) (db : List Nat), d ≠ 0 →
        ensureArray (jsOrBackoff (some (Sum.inl d)) db)
          = ensureArray (jsOrBackoff (some (Sum.inr [d])) db)) := by
  refine ⟨?_, ?_, ?_⟩
  · intro g bo r c hpos hne hlen
    match r, hlen with
    | 0, hlen =>
        exact absurd (List.length_pos.mpr hne) (by omega)
    | m + 1, hlen =>
        have h := tryDoGo_delays (α := α) g (bo.getLast?.getD 0) m bo (c + 1)
          hpos hlen
        simp [tryDo, tryDoGo, h]
  · intro g r c
    match r with
    | 0 => simp [tryDo, tryDoGo]
    | m + 1 =>
        have h := tryDoGo_delays (α := α) g 0 m [] (c + 1) (by simp) (by simp)
        simp [tryDo, tryDoGo, h]
  · intro d db hd
    simp [ensureArray, jsOrBackoff, hd]

/-- C2 witness: the amended theorem evaluated at concrete inputs. -/
theorem c2_amended_backoff_schedule_witness :
    ((tryDo (fun n => (Except.error n : Except Nat Nat)) (Int.ofNat 4) [10, 20] 0).2.1
        = [10, 20, 20, 20])
    ∧ ((tryDo (fun n => (Except.error n : Except Nat Nat)) (Int.ofNat 2) [] 0).2.1
        = [0, 0])
    ∧ (ensureArray (jsOrBackoff (some (Sum.inl 5)) [9])
        = ensureArray (jsOrBackoff (some (Sum.inr [5])) [9])) := by
  refine ⟨?_, ?_, ?_⟩
  · have h := (c2_amended_backoff_schedule (α := Nat) (ε := Nat)).1
      (fun n => n) [10, 20] 4 0 (by decide) (by decide) (by decide)
    simpa using h
  · have h := (c2_amended_backoff_schedule (α := Nat) (ε := Nat)).2.1
      (fun n => n) 2 0
    simpa using h
  · exact (c2_amended_backoff_schedule (α := Nat) (ε := Nat)).2.2 5 [9]
      (by decide)

/-- C3 counterexample: omitted fields are NOT filled from the most recent
`configureDefaults` call.  First scenario: defaults configured with
`backoff = [7]`, caller omits `backoff`; the engine fills it from the
frozen module-load `defaultOptions` (`[]`, truthy as an array), so the
one retry sleeps `0` ms, not `7`.  Second scenario: defaults configured
with an always-`suppress` fail handler, caller omits `fail`; the engine
uses the frozen always-`fail` handler, so the call rejects instead of
resolving `undefined`. -/
theorem c3_counterexample :
    eventually
        (configureDefaults (.mk (some 1) none (some (.inr [7])) none)
          (initialDefaults Nat Nat)) 5
        (fun n => if n = 0 then .error 0 else .ok 42)
        (some (.mk (some 1) (some (fun _ => .ok (.inl .fail))) none none)) 0
      = some (.ok (some 42), [0], 2)
    ∧ (configureDefaults (.mk (some 1) none (some (.inr [7])) none)
        (initialDefaults Nat Nat)).backoff = [7]
    ∧ ([0] : List Nat) ≠ [7]
    ∧ eventually
        (configureDefaults
          (.mk none (some (fun _ => .ok (.inl .suppress))) none none)
          (initialDefaults Nat Nat)) 3
        (fun n => (Except.error n : Except Nat Nat))
        (some (.mk (some 0) none none none)) 0
      = some (.err 0, [], 1)
    ∧ (some ((Outcome.err 0 : Outcome Nat Nat), ([] : List Nat), 1)
        ≠ some (Outcome.ok none, ([] : List Nat), 1)) := by
  refine ⟨by decide, by decide, by decide, by decide, by decide⟩

/-- C3 (amended): an omitted `retries` is effectively filled from the
current defaults — `resolveOptions` writes the frozen `0`, which is falsy
under `options.retries || defaultRetries`, so the engine reads the
current `defaultRetries` — but an omitted `fail` or `backoff` is filled
from the `defaultOptions` record frozen at module load (the always-`fail`
handler and the empty, truthy backoff array), so for those two fields
later `configureDefaults` calls have no effect. -/
theorem c3_amended_defaulting :
    ∀ (D : Defaults α ε) (r : Option Int)
      (f : Option (ε → Except ε (ErrorHandlingStrategies ⊕ EvOptions α ε)))
      (b : Option (Nat ⊕ List Nat)) (rd : Option (ε → Nat → Except ε α)),
      jsOrInt (resolveOptions (some (EvOptions.mk none f b rd))).retries D.retries
          = D.retries
      ∧ (resolveOptions (some (EvOptions.mk r none b rd))).failHandler
          = (defaultOptions α ε).failHandler
      ∧ jsOrBackoff (resolveOptions (some (EvOptions.mk r f none rd))).backoff
          D.backoff = Sum.inr []
      ∧ (defaultOptions α ε).failHandler
          = some (fun _ => Except.ok (Sum.inl ErrorHandlingStrategies.fail)) := by
  intro D r f b rd
  refine ⟨?_, ?_, ?_, rfl⟩
  · simp [resolveOptions, defaultOptions, jsOrInt, EvOptions.retries]
  · cases b <;> simp [resolveOptions, defaultOptions, EvOptions.failHandler]
  · cases r <;> simp [resolveOptions, defaultOptions, jsOrBackoff,
      EvOptions.backoff]

/-- C4 counterexample: caller passes an explicit `retries: 0` while the
configured default retries is `2`; `options.retries || defaultRetries`
treats the explicit `0` as falsy, so the engine makes THREE attempts
(counter `0 → 3`) and consumes two (zero-ms) delays, not one attempt and
no delay as the claim states. -/
theorem c4_counterexample :
    eventually
        (configureDefaults (.mk (some 2) none none none)
          (initialDefaults Nat Nat)) 3
        (fun n => (Except.error n : Except Nat Nat))
        (some (.mk (some 0) none none none)) 0
      = some (.err 2, [0, 0], 3)
    ∧ (eventually
        (configureDefaults (.mk (some 2) none none none)
          (initialDefaults Nat Nat)) 3
        (fun n => (Except.error n : Except Nat Nat))
        (some (.mk (some 0) none none none)) 0).map (fun p => p.2.2)
      ≠ some 1 := by
  refine ⟨by decide, by decide⟩

/-- C4 (amended): an explicit `retries: 0` is falsy under
`options.retries || defaultRetries`, so the engine substitutes the
CURRENT default retries for it; the claimed behaviour — exactly one
attempt (counter `c → c + 1`) and no delay ever consumed — holds
precisely when the configured default retries is `≤ 0` (e.g. left
unconfigured). -/
theorem c4_amended_explicit_zero_retries :
    ∀ (D : Defaults α ε)
      (f : Option (ε → Except ε (ErrorHandlingStrategies ⊕ EvOptions α ε)))
      (b : Option (Nat ⊕ List Nat)) (rd : Option (ε → Nat → Except ε α))
      (func : Nat → Except ε α) (bo : List Nat) (c : Nat),
      jsOrInt (resolveOptions (some (EvOptions.mk (some 0) f b rd))).retries
          D.retries = D.retries
      ∧ (D.retries ≤ 0 →
          (tryDo func
            (jsOrInt (resolveOptions (some (EvOptions.mk (some 0) f b rd))).retries
              D.retries) bo c).2 = ([], c + 1)) := by
  intro D f b rd func bo c
  have hres : jsOrInt
      (resolveOptions (some (EvOptions.mk (some 0) f b rd))).retries D.retries
      = D.retries := by
    simp [resolveOptions, jsOrInt, EvOptions.retries]
  refine ⟨hres, fun hD => ?_⟩
  rw [hres]
  have ht : D.retries.toNat = 0 := Int.toNat_of_nonpos hD
  simp only [tryDo, ht]
  cases hfc : func c <;> simp [tryDoGo, hfc]

/-- C4 witness: the amended theorem at the unconfigured defaults. -/
theorem c4_amended_explicit_zero_retries_witness :
    jsOrInt
        (resolveOptions (α := Nat) (ε := Nat)
          (some (EvOptions.mk (some 0) none none none))).retries
        (initialDefaults Nat Nat).retries
      = (initialDefaults Nat Nat).retries
    ∧ (tryDo (fun n => (Except.error n : Except Nat Nat))
        (jsOrInt
          (resolveOptions (α := Nat) (ε := Nat)
            (some (EvOptions.mk (some 0) none none none))).retries
          (initialDefaults Nat Nat).retries) [3, 4] 0).2 = ([], 1) := by
  have h := c4_amended_explicit_zero_retries (α := Nat) (ε := Nat)
    (initialDefaults Nat Nat) none none none
    (fun n => (Except.error n : Except Nat Nat)) [3, 4] 0
  exact ⟨h.1, h.2 (by decide)⟩

/-- C5: when the effective options carry a `redirect` field and the retry
round exhausts with last error `E`, the call's result is that of a fresh
recursive `eventually` invocation of the operation `() => redirect(E)`
under the same options with only `redirect` removed — `retries`,
`fail` and `backoff` all intact — so a failing redirect is itself subject
to the original retry count, backoff and failure policy.  (The call's
delay trace is the exhausted round's delays followed by the recursive
call's, and the recursive call starts a fresh invocation counter for the
redirect closure.) -/
theorem c5_redirect_recursion
    (D : Defaults α ε) (fuel : Nat) (func : Nat → Except ε α)
    (opts : Option (EvOptions α ε)) (c : Nat)
    (rd : ε → Nat → Except ε α) (E : ε) (ds : List Nat) (c1 : Nat)
    (hrd : (resolveOptions opts).redirect = some rd)
    (htry : tryDo func (jsOrInt (resolveOptions opts).retries D.retries)
        (ensureArray (jsOrBackoff (resolveOptions opts).backoff D.backoff)) c
      = (.error E, ds, c1)) :
    eventually D (fuel + 1) func opts c
      = (eventually D fuel (fun n => rd E n)
          (some (omitRedirect (resolveOptions opts))) 0).map
          (fun p => (p.1, ds ++ p.2.1, p.2.2))
    ∧ (omitRedirect (resolveOptions opts)).retries
        = (resolveOptions opts).retries
    ∧ (omitRedirect (resolveOptions opts)).failHandler
        = (resolveOptions opts).failHandler
    ∧ (omitRedirect (resolveOptions opts)).backoff
        = (resolveOptions opts).backoff
    ∧ (omitRedirect (resolveOptions opts)).redirect = none := by
  refine ⟨?_, rfl, rfl, rfl, rfl⟩
  simp only [eventually, htry, hrd]
  cases h : eventually D fuel (fun n => rd E n)
      (some (omitRedirect (resolveOptions opts))) 0 with
  | none => simp
  | some p => simp

/-- C5 witness: redirect supplying `100` after a single failed attempt. -/
theorem c5_redirect_recursion_witness :
    eventually (initialDefaults Nat Nat) 2
        (fun n => (Except.error n : Except Nat Nat))
        (some (.mk (some 0) none none (some (fun _ _ => Except.ok 100)))) 0
      = (eventually (initialDefaults Nat Nat) 1
          (fun _ => (Except.ok 100 : Except Nat Nat))
          (some (omitRedirect (resolveOptions
            (some (.mk (some 0) none none (some (fun _ _ => Except.ok 100))))))) 0).map
          (fun p => (p.1, [] ++ p.2.1, p.2.2))
    ∧ eventually (initialDefaults Nat Nat) 2
        (fun n => (Except.error n : Except Nat Nat))
        (some (.mk (some 0) none none (some (fun _ _ => Except.ok 100)))) 0
      = some (.ok (some 100), [], 1) := by
  refine ⟨?_, by decide⟩
  exact (c5_redirect_recursion (initialDefaults Nat Nat) 1
    (fun n => (Except.error n : Except Nat Nat))
    (some (.mk (some 0) none none (some (fun _ _ => Except.ok 100)))) 0
    (fun _ _ => Except.ok 100) 0 [] 1 rfl rfl).1

/-- C6: when the fail handler, invoked after exhaustion with last error
`E`, returns an options-shaped record without a `redirect` field, the
call's result is that of a fresh recursive `eventually` invocation of the
ORIGINAL operation under the returned record wholesale (its own retries,
backoff and fail handling included; the operation's invocation counter
continues from the exhausted round). -/
theorem c6_handler_options_recursion
    (D : Defaults α ε) (fuel : Nat) (func : Nat → Except ε α)
    (opts : Option (EvOptions α ε)) (c : Nat)
    (f : ε → Except ε (ErrorHandlingStrategies ⊕ EvOptions α ε))
    (newOpts : EvOptions α ε) (E : ε) (ds : List Nat) (c1 : Nat)
    (hrd : (resolveOptions opts).redirect = none)
    (hf : (resolveOptions opts).failHandler = some f)
    (htry : tryDo func (jsOrInt (resolveOptions opts).retries D.retries)
        (ensureArray (jsOrBackoff (resolveOptions opts).backoff D.backoff)) c
      = (.error E, ds, c1))
    (hres : f E = .ok (.inr newOpts))
    (hnord : newOpts.redirect = none) :
    eventually D (fuel + 1) func opts c
      = (eventually D fuel func (some newOpts) c1).map
          (fun p => (p.1, ds ++ p.2.1, p.2.2)) := by
  simp only [eventually, htry, hrd, hf, hres, hnord]
  cases h : eventually D fuel func (some newOpts) c1 with
  | none => simp
  | some p => simp

/-- C6 witness: a still-failing operation under a handler-returned
`{retries: 0, fail: always-fail}` rejects with the SECOND round's last
error (`1`, the error of invocation 1), not the first round's (`0`). -/
theorem c6_handler_options_recursion_witness :
    eventually (initialDefaults Nat Nat) 2
        (fun n => (Except.error n : Except Nat Nat))
        (some (.mk (some 0)
          (some (fun _ => Except.ok (Sum.inr
            (.mk (some 0) (some (fun _ => Except.ok (Sum.inl .fail))) none none))))
          none none)) 0
      = (eventually (initialDefaults Nat Nat) 1
          (fun n => (Except.error n : Except Nat Nat))
          (some (.mk (some 0) (some (fun _ => Except.ok (Sum.inl .fail)))
            none none)) 1).map
          (fun p => (p.1, [] ++ p.2.1, p.2.2))
    ∧ eventually (initialDefaults Nat Nat) 2
        (fun n => (Except.error n : Except Nat Nat))
        (some (.mk (some 0)
          (some (fun _ => Except.ok (Sum.inr
            (.mk (some 0) (some (fun _ => Except.ok (Sum.inl .fail))) none none))))
          none none)) 0
      = some (.err 1, [], 2)
    ∧ ((1 : Nat) ≠ 0) := by
  refine ⟨?_, by decide, by decide⟩
  exact c6_handler_options_recursion (initialDefaults Nat Nat) 1
    (fun n => (Except.error n : Except Nat Nat))
    (some (.mk (some 0)
      (some (fun _ => Except.ok (Sum.inr
        (.mk (some 0) (some (fun _ => Except.ok (Sum.inl .fail))) none none))))
      none none)) 0
    (fun _ => Except.ok (Sum.inr
      (.mk (some 0) (some (fun _ => Except.ok (Sum.inl .fail))) none none)))
    (.mk (some 0) (some (fun _ => Except.ok (Sum.inl .fail))) none none)
    0 [] 1 rfl rfl rfl rfl rfl

/-- C7: when retries are exhausted by an always-failing operation and
either no fail handler is configured or the handler resolves to the
`fail` strategy, the call rejects with exactly the error of the last
attempt (invocation `c + r` where `r` is the effective retries clamped
at zero), never wrapped or altered; the counter confirms no further
attempt is made. -/
theorem c7_verbatim_error_propagation
    (D : Defaults α ε) (fuel : Nat) (g : Nat → ε)
    (opts : Option (EvOptions α ε)) (c : Nat)
    (hrd : (resolveOptions opts).redirect = none)
    (hfail : (resolveOptions opts).failHandler = none
      ∨ ∃ f, (resolveOptions opts).failHandler = some f
          ∧ f (g (c + (jsOrInt (resolveOptions opts).retries D.retries).toNat))
            = .ok (.inl .fail)) :
    (eventually D (fuel + 1) (fun n => Except.error (g n)) opts c).map
        (fun p => (p.1, p.2.2))
      = some
          (.err (g (c + (jsOrInt (resolveOptions opts).retries D.retries).toNat)),
            c + (jsOrInt (resolveOptions opts).retries D.retries).toNat + 1) := by
  obtain ⟨ds, htry⟩ := tryDoGo_alwaysFail (α := α) g
    ((ensureArray (jsOrBackoff (resolveOptions opts).backoff D.backoff)).getLast?.getD 0)
    (jsOrInt (resolveOptions opts).retries D.retries).toNat c
    (ensureArray (jsOrBackoff (resolveOptions opts).backoff D.backoff)) true
  have htry2 : tryDo (fun n => Except.error (g n))
      (jsOrInt (resolveOptions opts).retries D.retries)
      (ensureArray (jsOrBackoff (resolveOptions opts).backoff D.backoff)) c
      = (Except.error
          (g (c + (jsOrInt (resolveOptions opts).retries D.retries).toNat)), ds,
        c + (jsOrInt (resolveOptions opts).retries D.retries).toNat + 1) := htry
  rcases hfail with hnone | ⟨f, hf, hstrat⟩
  · simp only [eventually, htry2, hrd, hnone]
    simp
  · simp only [eventually, htry2, hrd, hf, hstrat]
    simp

/-- C7 witness: `retries: 0` (no options at all, unconfigured defaults),
operation always fails with `E = invocation index`: the call rejects
with exactly error `0`. -/
theorem c7_verbatim_error_propagation_witness :
    (eventually (initialDefaults Nat Nat) 1
        (fun n => (Except.error n : Except Nat Nat)) none 0).map
        (fun p => (p.1, p.2.2))
      = some (.err 0, 1) := by
  have h := c7_verbatim_error_propagation (α := Nat) (ε := Nat)
    (initialDefaults Nat Nat) 0 (fun n => n) none 0 rfl
    (Or.inr ⟨fun _ => Except.ok (Sum.inl .fail), rfl, rfl⟩)
  simpa using h

/-- C8: when the fail handler resolves to the `halt` strategy after
exhaustion, the call's outcome is `hang` — the model of the
`new Promise(() => {})` the source returns, a computation that never
settles (neither resolves nor rejects). -/
theorem c8_halt_never_settles
    (D : Defaults α ε) (fuel : Nat) (func : Nat → Except ε α)
    (opts : Option (EvOptions α ε)) (c : Nat)
    (f : ε → Except ε (ErrorHandlingStrategies ⊕ EvOptions α ε))
    (E : ε) (ds : List Nat) (c1 : Nat)
    (hrd : (resolveOptions opts).redirect = none)
    (hf : (resolveOptions opts).failHandler = some f)
    (htry : tryDo func (jsOrInt (resolveOptions opts).retries D.retries)
        (ensureArray (jsOrBackoff (resolveOptions opts).backoff D.backoff)) c
      = (.error E, ds, c1))
    (hstrat : f E = .ok (.inl .halt)) :
    eventually D (fuel + 1) func opts c = some (.hang, ds, c1) := by
  simp only [eventually, htry, hrd, hf, hstrat]

/-- C8 witness: an always-failing operation with an always-`halt`
handler hangs. -/
theorem c8_halt_never_settles_witness :
    eventually (initialDefaults Nat Nat) 1
        (fun n => (Except.error n : Except Nat Nat))
        (some (.mk (some 0) (some (fun _ => Except.ok (Sum.inl .halt))) none none)) 0
      = some (.hang, [], 1) :=
  c8_halt_never_settles (initialDefaults Nat Nat) 0
    (fun n => (Except.error n : Except Nat Nat))
    (some (.mk (some 0) (some (fun _ => Except.ok (Sum.inl .halt))) none none)) 0
    (fun _ => Except.ok (Sum.inl .halt)) 0 [] 1 rfl rfl rfl rfl

/-- C9 counterexample: the caller-supplied options record is NOT left
unchanged: `resolveOptions` assigns the defaulted fields onto the
caller's record in place and returns that same object, so a record
omitting `retries`/`fail`/`backoff` differs after the call (e.g. its
`retries` is now `some 0`). -/
theorem c9_counterexample :
    resolveOptions (α := Nat) (ε := Nat) (some (.mk none none none none))
      ≠ .mk none none none none := by
  intro h
  have h2 := congrArg EvOptions.retries h
  simp [resolveOptions, defaultOptions, EvOptions.retries] at h2

/-- C9 (amended): options resolution fills the defaulted fields directly
on the caller's record (mutating it), but never alters a field the
caller did set: a record specifying all of `retries`, `fail` and
`backoff` passes through resolution completely unchanged (and `tryDo`
consumes delays only from a private copy of the backoff array —
`backoff.slice()` — so the caller's array contents are likewise never
modified). -/
theorem c9_amended_full_record_preserved :
    ∀ (n : Int) (f : ε → Except ε (ErrorHandlingStrategies ⊕ EvOptions α ε))
      (b : Nat ⊕ List Nat) (rd : Option (ε → Nat → Except ε α)),
      resolveOptions (some (EvOptions.mk (some n) (some f) (some b) rd))
        = EvOptions.mk (some n) (some f) (some b) rd := by
  intro n f b rd
  rfl

/-- C10: when the fail handler itself fails (rejects with `H`), the call
rejects with exactly `H`: the handler's own failure is not retried (the
invocation counter stays at the exhausted round's value), not passed
through the failure policy, and not replaced by the operation's last
error. -/
theorem c10_handler_failure_propagates
    (D : Defaults α ε) (fuel : Nat) (func : Nat → Except ε α)
    (opts : Option (EvOptions α ε)) (c : Nat)
    (f : ε → Except ε (ErrorHandlingStrategies ⊕ EvOptions α ε))
    (E H : ε) (ds : List Nat) (c1 : Nat)
    (hrd : (resolveOptions opts).redirect = none)
    (hf : (resolveOptions opts).failHandler = some f)
    (htry : tryDo func (jsOrInt (resolveOptions opts).retries D.retries)
        (ensureArray (jsOrBackoff (resolveOptions opts).backoff D.backoff)) c
      = (.error E, ds, c1))
    (hstrat : f E = .error H) :
    eventually D (fuel + 1) func opts c = some (.err H, ds, c1) := by
  simp only [eventually, htry, hrd, hf, hstrat]

/-- C10 witness: a handler that rejects with `e + 50` makes the call
reject with `50` (not with the operation's error `0`), after exactly the
exhausted round's single attempt. -/
theorem c10_handler_failure_propagates_witness :
    eventually (initialDefaults Nat Nat) 1
        (fun n => (Except.error n : Except Nat Nat))
        (some (.mk (some 0) (some (fun e => Except.error (e + 50))) none none)) 0
      = some (.err 50, [], 1) :=
  c10_handler_failure_propagates (initialDefaults Nat Nat) 0
    (fun n => (Except.error n : Except Nat Nat))
    (some (.mk (some 0) (some (fun e => Except.error (e + 50))) none none)) 0
    (fun e => Except.error (e + 50)) 0 50 [] 1 rfl rfl rfl rfl

end Theorems
